import Mathlib

/-
Verification of the openclaw voice-client gateway core: the delta-streaming
callback wrapper of agent-service.ts, the session manager (idle pause/resume)
of session-manager.ts, and the HTTP audio-turn handler of http-handler.ts.
Strings handled character-by-character by the delta tracker are embedded as
List Char; timestamps (Date.now(), new Date()) as Nat milliseconds passed in
explicitly; the Node Map and Set as association lists and lists of keys.
-/

set_option autoImplicit false

/-- State of the delta tracker inside generateAgentResponseStreaming
(agent-service.ts, lines 329-341): `lastEmittedLength` is the mutable local of
the closure, `emitted` records every `onToken(delta, done)` invocation made so
far, in call order. -/
structure StreamState where
  lastEmittedLength : Nat
  emitted : List (List Char × Bool)
  deriving DecidableEq, Repr

/-- One invocation of the onPartialReply closure of agent-service.ts
(lines 334-340): `delta = payload.text.slice(lastEmittedLength)`; when the
delta is non-empty, `lastEmittedLength` advances to the snapshot length and
`onToken(delta, false)` fires; an empty delta leaves the state untouched. -/
def onPartialReplyStep (st : StreamState) (s : List Char) : StreamState :=
  let delta := s.drop st.lastEmittedLength
  if delta = [] then st
  else { lastEmittedLength := s.length, emitted := st.emitted ++ [(delta, false)] }

/-- The delta-tracking portion of generateAgentResponseStreaming: the state
after the agent collaborator has delivered `snapshots` of cumulative text to
onPartialReply, starting from `lastEmittedLength = 0` and no emissions. -/
def streamDeltas (snapshots : List (List Char)) : StreamState :=
  snapshots.foldl onPartialReplyStep { lastEmittedLength := 0, emitted := [] }

/-- One payload of runEmbeddedPiAgent's result (agent-service.ts). -/
structure AgentPayload where
  text : Option String
  isError : Bool
  deriving DecidableEq, Repr

/-- Result of runEmbeddedPiAgent: `payloads` plus the `meta.aborted` flag. -/
structure RunResult where
  payloads : List AgentPayload
  aborted : Bool
  deriving DecidableEq, Repr

/-- AgentResponseResult of agent-service.ts: `{ text: string | null, error?: string }`. -/
structure AgentResponseResult where
  text : Option String
  error : Option String
  deriving DecidableEq, Repr

/-- extractResultText (agent-service.ts, lines 266-282): keep payloads with
truthy text and no error flag, trim each, drop blanks, join with spaces;
`joined || null`; only a blank join together with `meta.aborted` yields the
abort error. -/
def extractResultText (result : RunResult) : AgentResponseResult :=
  let texts :=
    ((result.payloads.filter fun p => (p.text.getD "" != "") && (!p.isError)).map
      fun p => (p.text.getD "").trim).filter fun t => t != ""
  let joined := String.intercalate " " texts
  if joined = "" then
    if result.aborted then
      { text := none, error := some "Response generation was aborted" }
    else { text := none, error := none }
  else { text := some joined, error := none }

/-- Behaviour of one runEmbeddedPiAgent call as observed by
generateAgentResponseStreaming: the cumulative-text snapshots delivered to
onPartialReply in order, then either a normal result or a thrown exception. -/
inductive AgentRun where
  | completes (snapshots : List (List Char)) (result : RunResult)
  | throws (snapshots : List (List Char)) (message : String)
  deriving DecidableEq, Repr

/-- generateAgentResponseStreaming (agent-service.ts, lines 322-356): wires the
delta tracker through onPartialReply, then sends the final `onToken("", true)`
done signal and returns extractResultText of the result; when
runEmbeddedPiAgent throws, the catch block returns the error result without
the done signal. The second component lists every onToken call in order. -/
def generateAgentResponseStreaming (run : AgentRun) :
    AgentResponseResult × List (List Char × Bool) :=
  match run with
  | .completes snapshots result =>
      (extractResultText result, (streamDeltas snapshots).emitted ++ [([], true)])
  | .throws snapshots message =>
      ({ text := none, error := some message }, (streamDeltas snapshots).emitted)

/-- The upstream collaborator contract of the spec: each snapshot extends the
previous one, the first extending `prev`. -/
def chainFrom : List Char → List (List Char) → Prop
  | _, [] => True
  | prev, s :: rest => (∃ t, s = prev ++ t) ∧ chainFrom s rest

/-- The deltas the tracker emits along a prefix-extending snapshot sequence:
for each snapshot the suffix past the previous snapshot, skipping no-op
(equal) snapshots. -/
def deltasFrom : List Char → List (List Char) → List (List Char)
  | _, [] => []
  | prev, s :: rest =>
      (if s.drop prev.length = [] then [] else [s.drop prev.length]) ++ deltasFrom s rest

/-- The last snapshot of the sequence, or `prev` when there is none. -/
def lastOr (prev : List Char) : List (List Char) → List Char
  | [] => prev
  | s :: rest => lastOr s rest

/-- How many snapshots strictly grow past the running maximum length. -/
def countGrow (prev : List Char) : List (List Char) → Nat
  | [] => 0
  | s :: rest => (if prev.length < s.length then 1 else 0) + countGrow s rest

/-- SessionMessage of types.ts: id, role ("user" | "assistant"), content,
creation time. -/
structure SessionMessage where
  id : String
  role : String
  content : String
  timestamp : Nat
  deriving DecidableEq, Repr

/-- VoiceClientSession of types.ts: identifier, timestamps, profile label and
the ordered message history. -/
structure VoiceClientSession where
  id : String
  createdAt : Nat
  lastActivity : Nat
  profileName : String
  messages : List SessionMessage
  deriving DecidableEq, Repr

/-- IDLE_TIMEOUT_MS of session-manager.ts: 5 minutes. -/
def IDLE_TIMEOUT_MS : Nat := 5 * 60 * 1000

/-- CHECK_INTERVAL_MS of session-manager.ts: the 30 second sweep granularity. -/
def CHECK_INTERVAL_MS : Nat := 30 * 1000

/-- The module-level mutable state of session-manager.ts: the `sessions` Map,
the `pausedSessions` Set, the `idleTimers` Map (each live timer modelled by
its firing deadline), and the record of pause/resume callback invocations in
order (`onPauseCallback` / `onResumeCallback`). -/
structure ManagerState where
  sessions : List (String × VoiceClientSession)
  pausedSessions : List String
  idleTimers : List (String × Nat)
  pauseEvents : List String
  resumeEvents : List String
  deriving DecidableEq, Repr

/-- Map.get on an association list: first entry with the key. -/
def lookupKey {α : Type} (k : String) : List (String × α) → Option α
  | [] => none
  | p :: rest => if p.1 = k then some p.2 else lookupKey k rest

/-- Map.delete on an association list. -/
def eraseKey {α : Type} (k : String) : List (String × α) → List (String × α)
  | [] => []
  | p :: rest => if p.1 = k then eraseKey k rest else p :: eraseKey k rest

/-- Map.set on an association list: replace in place, or append. -/
def setKey {α : Type} (k : String) (v : α) : List (String × α) → List (String × α)
  | [] => [(k, v)]
  | p :: rest => if p.1 = k then (k, v) :: rest else p :: setKey k v rest

/-- Set.delete on the paused-session list. -/
def removeId (k : String) : List String → List String
  | [] => []
  | x :: rest => if x = k then rest else x :: removeId k rest

/-- The `session.lastActivity = new Date()` mutation seen through the sessions
map: the session stored under `k` gets `lastActivity := now`. -/
def touchSession (now : Nat) (k : String) (l : List (String × VoiceClientSession)) :
    List (String × VoiceClientSession) :=
  l.map fun p => if p.1 = k then (p.1, { p.2 with lastActivity := now }) else p

/-- `session.messages.push(message); session.lastActivity = new Date()` seen
through the sessions map. -/
def pushMessage (now : Nat) (k : String) (message : SessionMessage)
    (l : List (String × VoiceClientSession)) : List (String × VoiceClientSession) :=
  l.map fun p =>
    if p.1 = k then
      (p.1, { p.2 with messages := p.2.messages ++ [message], lastActivity := now })
    else p

/-- resetIdleTimer (session-manager.ts): clear any existing timer for the
session and arm a fresh one that fires IDLE_TIMEOUT_MS from now. -/
def resetIdleTimer (now : Nat) (sessionId : String) (st : ManagerState) : ManagerState :=
  { st with idleTimers := setKey sessionId (now + IDLE_TIMEOUT_MS) st.idleTimers }

/-- pauseSession (session-manager.ts, lines 391-413): no-op for an unknown or
already-paused session; otherwise mark paused, cancel the idle timer, and
invoke the registered pause callback. -/
def pauseSession (sessionId : String) (st : ManagerState) : ManagerState :=
  match lookupKey sessionId st.sessions with
  | none => st
  | some _ =>
    if sessionId ∈ st.pausedSessions then st
    else
      { st with
        pausedSessions := sessionId :: st.pausedSessions
        idleTimers := eraseKey sessionId st.idleTimers
        pauseEvents := st.pauseEvents ++ [sessionId] }

/-- resumeSession (session-manager.ts, lines 418-439): no-op unless paused;
otherwise clear the paused flag, refresh lastActivity and re-arm the idle
timer when the session still exists, and invoke the resume callback. -/
def resumeSession (now : Nat) (sessionId : String) (st : ManagerState) : ManagerState :=
  if sessionId ∈ st.pausedSessions then
    let st1 := { st with pausedSessions := removeId sessionId st.pausedSessions }
    let st2 :=
      if (lookupKey sessionId st1.sessions).isSome then
        resetIdleTimer now sessionId
          { st1 with sessions := touchSession now sessionId st1.sessions }
      else st1
    { st2 with resumeEvents := st2.resumeEvents ++ [sessionId] }
  else st

/-- getOrResumeSession (session-manager.ts, lines 485-499): lookup; resume if
paused; refresh lastActivity and re-arm the idle timer; return the session. -/
def getOrResumeSession (now : Nat) (sessionId : String) (st : ManagerState) :
    Option VoiceClientSession × ManagerState :=
  match lookupKey sessionId st.sessions with
  | none => (none, st)
  | some _ =>
    let st1 := if sessionId ∈ st.pausedSessions then resumeSession now sessionId st else st
    let st2 := resetIdleTimer now sessionId
      { st1 with sessions := touchSession now sessionId st1.sessions }
    (lookupKey sessionId st2.sessions, st2)

/-- addMessage (session-manager.ts, lines 504-518): throw on an unknown
session; otherwise resume if paused, append to history, refresh lastActivity
and re-arm the idle timer. -/
def addMessage (now : Nat) (sessionId : String) (message : SessionMessage)
    (st : ManagerState) : Except String ManagerState :=
  match lookupKey sessionId st.sessions with
  | none => .error ("Session not found: " ++ sessionId)
  | some _ =>
    let st1 := if sessionId ∈ st.pausedSessions then resumeSession now sessionId st else st
    .ok (resetIdleTimer now sessionId
      { st1 with sessions := pushMessage now sessionId message st1.sessions })

/-- getSessionMessages (session-manager.ts, lines 523-526): the session's
history, or the empty list for an unknown identifier. -/
def getSessionMessages (sessionId : String) (st : ManagerState) : List SessionMessage :=
  match lookupKey sessionId st.sessions with
  | none => []
  | some s => s.messages

/-- One entry of the sweep body inside startCleanupInterval
(session-manager.ts, lines 344-354): skip paused sessions, pause any whose
idle time reached IDLE_TIMEOUT_MS. -/
def sweepStep (now : Nat) (acc : ManagerState) (p : String × VoiceClientSession) :
    ManagerState :=
  if p.1 ∈ acc.pausedSessions then acc
  else if IDLE_TIMEOUT_MS ≤ now - p.2.lastActivity then pauseSession p.1 acc
  else acc

/-- One tick of the 30-second cleanup interval (startCleanupInterval): iterate
the sessions map, pausing every non-paused session idle for at least
IDLE_TIMEOUT_MS. -/
def cleanupTick (now : Nat) (st : ManagerState) : ManagerState :=
  st.sessions.foldl (sweepStep now) st

/-- MAX_AUDIO_SIZE of http-handler.ts: 10MB. -/
def MAX_AUDIO_SIZE : Nat := 10 * 1024 * 1024

/-- Result of the transcription collaborator (stt-service.ts):
`{ text, confidence }`. Confidence is carried opaquely. -/
structure Transcription where
  text : String
  confidence : Nat
  deriving DecidableEq, Repr

/-- The parts of a POST /audio request handleAudioUpload reads: the X-Profile
header, the X-Session-Key header, the sessionId query parameter, and the total
request body size in bytes. A present-but-empty header or parameter is kept as
`some ""` (JavaScript treats it as falsy, like a missing one). -/
structure AudioRequest where
  xProfile : Option String
  xSessionKey : Option String
  sessionIdParam : Option String
  bodySize : Nat
  deriving DecidableEq, Repr

/-- JSON body shapes handleAudioUpload writes: a bare `{error}` object, the
success object with transcription and response text, or the agent-error
object that still carries the transcription. -/
inductive AudioBody where
  | errorBody (message : String)
  | resultBody (transcriptionText : String) (confidence : Nat) (responseText : String)
  | errorWithTranscription (transcriptionText : String) (confidence : Nat) (message : String)
  deriving DecidableEq, Repr

/-- Observable outcome of one handleAudioUpload call: HTTP status, the
Content-Type header, the JSON body, the session-manager state afterwards, and
whether the agent collaborator was invoked. -/
structure AudioOutcome where
  status : Nat
  contentType : String
  body : AudioBody
  state : ManagerState
  agentCalled : Bool
  deriving DecidableEq, Repr

/-- The fixed fallback reply for a blank transcription (http-handler.ts). -/
def emptyTranscriptionFallback : String := "I didn't catch that. Could you try again?"

/-- The fallback reply when the agent produced no text (http-handler.ts). -/
def noResponseFallback : String := "I'm sorry, I couldn't generate a response."

/-- handleAudioUpload of http-handler.ts (the VoiceClientHttpServer method):
validation (X-Profile present, profile allowed, sessionId present, session
known, body within MAX_AUDIO_SIZE) with synchronous JSON errors, then the
transcription collaborator (a throw is caught as a 500), the empty-transcript
guard that answers with the fixed fallback and skips the agent, then the user
message append, the agent collaborator (modelled by its
AgentResponseResult), and the assistant message append. `now` stands for
Date.now() during the turn. -/
def handleAudioUpload (st : ManagerState) (allowedProfiles : List String)
    (req : AudioRequest) (now : Nat) (transcription : Except String Transcription)
    (agentResult : AgentResponseResult) : AudioOutcome :=
  match req.xProfile with
  | none => ⟨400, "application/json", .errorBody "X-Profile header required", st, false⟩
  | some profileName =>
    if profileName = "" then
      ⟨400, "application/json", .errorBody "X-Profile header required", st, false⟩
    else if profileName ∉ allowedProfiles then
      ⟨403, "application/json", .errorBody "Profile not allowed", st, false⟩
    else
      match req.sessionIdParam with
      | none =>
        ⟨400, "application/json", .errorBody "sessionId query parameter required", st, false⟩
      | some sessionId =>
        if sessionId = "" then
          ⟨400, "application/json", .errorBody "sessionId query parameter required", st, false⟩
        else
          match lookupKey sessionId st.sessions with
          | none => ⟨404, "application/json", .errorBody "Session not found", st, false⟩
          | some _ =>
            if MAX_AUDIO_SIZE < req.bodySize then
              ⟨413, "application/json", .errorBody "Audio file too large", st, false⟩
            else
              match transcription with
              | .error message =>
                ⟨500, "application/json", .errorBody message, st, false⟩
              | .ok tr =>
                if tr.text = "" then
                  ⟨200, "application/json",
                    .resultBody "" tr.confidence emptyTranscriptionFallback, st, false⟩
                else
                  match addMessage now sessionId
                      ⟨"msg-" ++ toString now ++ "-user", "user", tr.text, now⟩ st with
                  | .error message =>
                    ⟨500, "application/json", .errorBody message, st, false⟩
                  | .ok st1 =>
                    match agentResult.error with
                    | some message =>
                      ⟨500, "application/json",
                        .errorWithTranscription tr.text tr.confidence message, st1, true⟩
                    | none =>
                      let responseText :=
                        match agentResult.text with
                        | none => noResponseFallback
                        | some t => if t = "" then noResponseFallback else t
                      match addMessage now sessionId
                          ⟨"msg-" ++ toString now ++ "-assistant", "assistant",
                            responseText, now⟩ st1 with
                      | .error message =>
                        ⟨500, "application/json", .errorBody message, st1, true⟩
                      | .ok st2 =>
                        ⟨200, "application/json",
                          .resultBody tr.text tr.confidence responseText, st2, true⟩

/-- Wire-level event of the streamed /audio response (types.ts): `system`
carries a status tag and optional message, `userEvent` the final transcript
and confidence, `openclaw` an assistant text delta plus the done flag. -/
inductive SSEEvent where
  | system (status : String) (message : Option String)
  | userEvent (text : String) (confidence : Nat)
  | openclaw (text : List Char) (done : Bool)
  deriving DecidableEq, Repr

/-- Whether an event is one of the three terminal events that close a turn. -/
def isTerminalEvent : SSEEvent → Bool
  | .system status _ => status == "done" || status == "error" || status == "empty_transcription"
  | _ => false

/-- Modelled from the spec: the SSE-streaming variant of handleAudioUpload
(the version of http-handler.ts exercised by the sse tests) is not among the
repository's files, so its post-validation event sequencing is modelled from
spec section 4.4: once the stream opens emit `system:transcribing`; a
transcription throw becomes `system:error`; a successful transcript emits the
`user` event, then on blank text `system:empty_transcription` closes with no
agent call; otherwise `system:typing`, the agent streaming call wired through
the delta tracker of generateAgentResponseStreaming (each onToken call an
`openclaw` event), then `system:done` on success or `system:error` when the
result carries an error field. -/
def sseTurn (transcription : Except String Transcription) (run : AgentRun) :
    List SSEEvent :=
  match transcription with
  | .error message => [.system "transcribing" none, .system "error" (some message)]
  | .ok tr =>
    if tr.text = "" then
      [.system "transcribing" none, .userEvent tr.text tr.confidence,
        .system "empty_transcription" none]
    else
      let out := generateAgentResponseStreaming run
      [.system "transcribing" none, .userEvent tr.text tr.confidence,
        .system "typing" none]
      ++ out.2.map (fun c => SSEEvent.openclaw c.1 c.2)
      ++ match out.1.error with
         | some message => [.system "error" (some message)]
         | none => [.system "done" none]

/-- A concrete session used by the witness theorems. -/
def sampleSession : VoiceClientSession :=
  { id := "s1", createdAt := 0, lastActivity := 0, profileName := "Alice"
    messages := [{ id := "m1", role := "user", content := "hi", timestamp := 0 }] }

/-- A concrete one-session manager state used by the witness theorems. -/
def sampleState : ManagerState :=
  { sessions := [("s1", sampleSession)], pausedSessions := [], idleTimers := []
    pauseEvents := [], resumeEvents := [] }

/-- A prefix-extending chain ends in an extension of its starting point. -/
theorem lastOr_extends (snapshots : List (List Char)) :
    ∀ prev, chainFrom prev snapshots → ∃ u, lastOr prev snapshots = prev ++ u := by
  induction snapshots with
  | nil =>
    intro prev _
    exact ⟨[], by simp [lastOr]⟩
  | cons s rest ih =>
    intro prev h
    simp only [chainFrom] at h
    obtain ⟨⟨t, hs⟩, hrest⟩ := h
    obtain ⟨u, hu⟩ := ih s hrest
    refine ⟨t ++ u, ?_⟩
    show lastOr s rest = prev ++ (t ++ u)
    rw [hu, hs, List.append_assoc]

/-- Characterisation of the delta-tracker fold along a prefix-extending
snapshot chain: `lastEmittedLength` ends at the final snapshot's length and
the emissions are exactly the chain's deltas, each tagged done=false. -/
theorem foldl_onPartialReply_chain (snapshots : List (List Char)) :
    ∀ (prev : List Char) (n : Nat) (acc : List (List Char × Bool)),
      n = prev.length → chainFrom prev snapshots →
      snapshots.foldl onPartialReplyStep ⟨n, acc⟩ =
        ⟨(lastOr prev snapshots).length,
          acc ++ (deltasFrom prev snapshots).map (fun d => (d, false))⟩ := by
  induction snapshots with
  | nil =>
    intro prev n acc hn _
    simp [lastOr, deltasFrom, hn]
  | cons s rest ih =>
    intro prev n acc hn h
    subst hn
    simp only [chainFrom] at h
    obtain ⟨⟨t, hs⟩, hrest⟩ := h
    have hdrop : s.drop prev.length = t := by
      rw [hs]; exact List.drop_left prev t
    rw [List.foldl_cons]
    by_cases ht : t = []
    · have hsp : s = prev := by rw [hs, ht, List.append_nil]
      have hstep : onPartialReplyStep ⟨prev.length, acc⟩ s = ⟨prev.length, acc⟩ := by
        simp [onPartialReplyStep, hdrop, ht]
      rw [hstep, ih prev prev.length acc rfl (hsp ▸ hrest)]
      simp [lastOr, deltasFrom, hsp, List.drop_length]
    · have hstep : onPartialReplyStep ⟨prev.length, acc⟩ s
          = ⟨s.length, acc ++ [(t, false)]⟩ := by
        simp [onPartialReplyStep, hdrop, ht]
      rw [hstep, ih s s.length (acc ++ [(t, false)]) rfl hrest]
      simp [lastOr, deltasFrom, hdrop, ht]

/-- Along a prefix-extending chain the deltas concatenate to the suffix of
the final snapshot past the starting point. -/
theorem flatten_deltasFrom (snapshots : List (List Char)) :
    ∀ prev, chainFrom prev snapshots →
      (deltasFrom prev snapshots).flatten = (lastOr prev snapshots).drop prev.length := by
  induction snapshots with
  | nil =>
    intro prev _
    simp [deltasFrom, lastOr, List.drop_length]
  | cons s rest ih =>
    intro prev h
    simp only [chainFrom] at h
    obtain ⟨⟨t, hs⟩, hrest⟩ := h
    have hdrop : s.drop prev.length = t := by
      rw [hs]; exact List.drop_left prev t
    by_cases ht : t = []
    · have hsp : s = prev := by rw [hs, ht, List.append_nil]
      have h1 : deltasFrom prev (s :: rest) = deltasFrom s rest := by
        simp [deltasFrom, hdrop, ht]
      have h2 : lastOr prev (s :: rest) = lastOr s rest := rfl
      rw [h2, h1, ih s hrest, hsp]
    · obtain ⟨u, hu⟩ := lastOr_extends rest s hrest
      have h1 : (deltasFrom prev (s :: rest)).flatten
          = t ++ (deltasFrom s rest).flatten := by
        simp [deltasFrom, hdrop, ht]
      have h2 : lastOr prev (s :: rest) = lastOr s rest := rfl
      rw [h2, h1, ih s hrest, hu, hs]
      rw [List.drop_left, List.append_assoc, List.drop_left]

/-- Every delta of `deltasFrom` is non-empty, by the suppression guard. -/
theorem deltasFrom_ne_nil (snapshots : List (List Char)) :
    ∀ prev d, d ∈ deltasFrom prev snapshots → d ≠ [] := by
  induction snapshots with
  | nil =>
    intro prev d hd
    simp [deltasFrom] at hd
  | cons s rest ih =>
    intro prev d hd
    simp only [deltasFrom] at hd
    by_cases h : s.drop prev.length = []
    · rw [if_pos h, List.nil_append] at hd
      exact ih s d hd
    · rw [if_neg h, List.singleton_append] at hd
      rcases List.mem_cons.mp hd with rfl | h2
      · exact h
      · exact ih s d h2

/-- Along a prefix-extending chain, one delta is emitted exactly per strictly
growing snapshot. -/
theorem length_deltasFrom (snapshots : List (List Char)) :
    ∀ prev, chainFrom prev snapshots →
      (deltasFrom prev snapshots).length = countGrow prev snapshots := by
  induction snapshots with
  | nil =>
    intro prev _
    simp [deltasFrom, countGrow]
  | cons s rest ih =>
    intro prev h
    simp only [chainFrom] at h
    obtain ⟨⟨t, hs⟩, hrest⟩ := h
    have hdrop : s.drop prev.length = t := by
      rw [hs]; exact List.drop_left prev t
    have hlen : s.length = prev.length + t.length := by
      rw [hs]; exact List.length_append prev t
    simp only [deltasFrom, countGrow, hdrop]
    by_cases ht : t = []
    · have hnlt : ¬ prev.length < s.length := by
        rw [hlen, ht]; simp
      rw [if_pos ht, if_neg hnlt, List.nil_append, ih s hrest]
      simp
    · have hlt : prev.length < s.length := by
        have : 0 < t.length := List.length_pos.mpr ht
        omega
      rw [if_neg ht, if_pos hlt, List.singleton_append]
      simp [ih s hrest, Nat.add_comm]

/-- The delta-tracker fold only ever emits done=false tokens. -/
theorem emitted_done_false (snapshots : List (List Char)) :
    ∀ st : StreamState, (∀ p ∈ st.emitted, p.2 = false) →
      ∀ p ∈ (snapshots.foldl onPartialReplyStep st).emitted, p.2 = false := by
  induction snapshots with
  | nil =>
    intro st hst
    simpa using hst
  | cons s rest ih =>
    intro st hst
    rw [List.foldl_cons]
    apply ih
    intro p hp
    simp only [onPartialReplyStep] at hp
    split at hp
    · exact hst p hp
    · simp only [List.mem_append, List.mem_singleton] at hp
      rcases hp with h1 | h2
      · exact hst p h1
      · rw [h2]




/-- Along a prefix-extending snapshot chain from the empty string, the
tracker's emissions are exactly the chain's deltas tagged done=false. -/
theorem streamDeltas_emitted_chain (snapshots : List (List Char))
    (h : chainFrom [] snapshots) :
    (streamDeltas snapshots).emitted
      = (deltasFrom [] snapshots).map (fun d => (d, false)) := by
  unfold streamDeltas
  rw [foldl_onPartialReply_chain snapshots [] 0 [] rfl h]
  simp

/-- C2: for every prefix-extending sequence of cumulative-text snapshots
starting from the empty string delivered to onPartialReply,
generateAgentResponseStreaming invokes onToken with done=false exactly once
per strictly-growing snapshot (a snapshot equal to the previous one emits
nothing), every emitted delta is non-empty, and the emitted deltas
concatenate in order to exactly the final snapshot. -/
theorem c2_streaming_deltas_reconstruct (snapshots : List (List Char))
    (result : RunResult) (h : chainFrom [] snapshots) :
    (generateAgentResponseStreaming (.completes snapshots result)).2
        = (deltasFrom [] snapshots).map (fun d => (d, false)) ++ [([], true)]
      ∧ (∀ p ∈ (streamDeltas snapshots).emitted, p.1 ≠ [] ∧ p.2 = false)
      ∧ ((streamDeltas snapshots).emitted.map Prod.fst).flatten = lastOr [] snapshots
      ∧ (streamDeltas snapshots).emitted.length = countGrow [] snapshots := by
  have hem := streamDeltas_emitted_chain snapshots h
  refine ⟨?_, ?_, ?_, ?_⟩
  · show (streamDeltas snapshots).emitted ++ [([], true)] = _
    rw [hem]
  · intro p hp
    rw [hem] at hp
    simp only [List.mem_map] at hp
    obtain ⟨d, hd, hpd⟩ := hp
    rw [← hpd]
    exact ⟨deltasFrom_ne_nil snapshots [] d hd, rfl⟩
  · rw [hem, List.map_map]
    have hfst : (Prod.fst ∘ fun d : List Char => (d, false)) = id := rfl
    rw [hfst, List.map_id, flatten_deltasFrom snapshots [] h]
    rfl
  · rw [hem, List.length_map]
    exact length_deltasFrom snapshots [] h

/-- Witness for C2 at the chain "h", "hi". -/
theorem c2_streaming_deltas_reconstruct_witness :
    chainFrom [] [['h'], ['h', 'i']]
      ∧ ((generateAgentResponseStreaming
            (.completes [['h'], ['h', 'i']] ⟨[], false⟩)).2
          = (deltasFrom [] [['h'], ['h', 'i']]).map (fun d => (d, false)) ++ [([], true)]
        ∧ (∀ p ∈ (streamDeltas [['h'], ['h', 'i']]).emitted, p.1 ≠ [] ∧ p.2 = false)
        ∧ ((streamDeltas [['h'], ['h', 'i']]).emitted.map Prod.fst).flatten
            = lastOr [] [['h'], ['h', 'i']]
        ∧ (streamDeltas [['h'], ['h', 'i']]).emitted.length
            = countGrow [] [['h'], ['h', 'i']]) :=
  have hchain : chainFrom [] [['h'], ['h', 'i']] := by
    simp only [chainFrom]
    exact ⟨⟨['h'], rfl⟩, ⟨['i'], rfl⟩, trivial⟩
  ⟨hchain, c2_streaming_deltas_reconstruct [['h'], ['h', 'i']] ⟨[], false⟩ hchain⟩

/-- C3: whenever the agent collaborator completes (does not throw),
generateAgentResponseStreaming ends the callback sequence with exactly one
onToken with an empty delta and done=true, as the final invocation,
whatever snapshots were delivered and whatever the final result holds. -/
theorem c3_final_done_signal (snapshots : List (List Char)) (result : RunResult) :
    (generateAgentResponseStreaming (.completes snapshots result)).2 ≠ []
      ∧ (generateAgentResponseStreaming (.completes snapshots result)).2.getLast?
          = some ([], true)
      ∧ ((generateAgentResponseStreaming (.completes snapshots result)).2.countP
            fun c => c.2) = 1 := by
  have hfalse : ∀ p ∈ (streamDeltas snapshots).emitted, p.2 = false :=
    emitted_done_false snapshots { lastEmittedLength := 0, emitted := [] }
      (by intro p hp; simp at hp)
  have hcalls : (generateAgentResponseStreaming (.completes snapshots result)).2
      = (streamDeltas snapshots).emitted ++ [([], true)] := rfl
  refine ⟨?_, ?_, ?_⟩
  · rw [hcalls]
    simp
  · rw [hcalls]
    exact List.getLast?_concat _
  · rw [hcalls, List.countP_append]
    have h0 : ((streamDeltas snapshots).emitted.countP fun c => c.2) = 0 := by
      rw [List.countP_eq_zero]
      intro p hp
      simp [hfalse p hp]
    rw [h0]
    rfl

/-- C4: a snapshot shorter than lastEmittedLength (an upstream regression)
emits nothing, leaves lastEmittedLength untouched, and the step function is
total, so nothing is thrown. -/
theorem c4_regressed_snapshot_ignored (st : StreamState) (s : List Char)
    (h : s.length < st.lastEmittedLength) : onPartialReplyStep st s = st := by
  unfold onPartialReplyStep
  simp [List.drop_eq_nil_of_le (Nat.le_of_lt h)]

/-- Witness for C4 at a one-character snapshot against lastEmittedLength 5. -/
theorem c4_regressed_snapshot_ignored_witness :
    (['a'] : List Char).length < (⟨5, []⟩ : StreamState).lastEmittedLength
      ∧ onPartialReplyStep ⟨5, []⟩ ['a'] = ⟨5, []⟩ :=
  ⟨by decide, c4_regressed_snapshot_ignored ⟨5, []⟩ ['a'] (by decide)⟩

/-- Looking a key up after erasing that same key finds nothing. -/
theorem lookupKey_eraseKey_self {α : Type} (k : String) :
    ∀ l : List (String × α), lookupKey k (eraseKey k l) = none := by
  intro l
  induction l with
  | nil => rfl
  | cons p rest ih =>
    simp only [eraseKey]
    by_cases hpk : p.1 = k
    · rw [if_pos hpk]
      exact ih
    · rw [if_neg hpk]
      simp only [lookupKey, if_neg hpk]
      exact ih

/-- Erasing any key preserves the absence of a key. -/
theorem lookupKey_eraseKey_none {α : Type} (k q : String) :
    ∀ l : List (String × α), lookupKey k l = none → lookupKey k (eraseKey q l) = none := by
  intro l
  induction l with
  | nil => intro _; rfl
  | cons p rest ih =>
    intro h
    simp only [lookupKey] at h
    by_cases hpk : p.1 = k
    · rw [if_pos hpk] at h
      exact absurd h (by simp)
    · rw [if_neg hpk] at h
      simp only [eraseKey]
      by_cases hpq : p.1 = q
      · rw [if_pos hpq]
        exact ih h
      · rw [if_neg hpq]
        simp only [lookupKey, if_neg hpk]
        exact ih h

/-- A key present as an entry is found by lookup. -/
theorem lookupKey_isSome_of_mem {α : Type} (k : String) (v : α) :
    ∀ l : List (String × α), (k, v) ∈ l → (lookupKey k l).isSome := by
  intro l
  induction l with
  | nil =>
    intro h
    simp at h
  | cons p rest ih =>
    intro h
    simp only [lookupKey]
    by_cases hpk : p.1 = k
    · rw [if_pos hpk]
      rfl
    · rw [if_neg hpk]
      rcases List.mem_cons.mp h with h1 | h2
      · exact absurd (congrArg Prod.fst h1).symm hpk
      · exact ih h2

/-- pauseSession never touches the sessions map. -/
theorem pauseSession_sessions (k : String) (st : ManagerState) :
    (pauseSession k st).sessions = st.sessions := by
  unfold pauseSession
  cases lookupKey k st.sessions with
  | none => rfl
  | some s =>
    by_cases hp : k ∈ st.pausedSessions
    · simp [hp]
    · simp [hp]

/-- pauseSession never invokes the resume callback. -/
theorem pauseSession_resumeEvents (k : String) (st : ManagerState) :
    (pauseSession k st).resumeEvents = st.resumeEvents := by
  unfold pauseSession
  cases lookupKey k st.sessions with
  | none => rfl
  | some s =>
    by_cases hp : k ∈ st.pausedSessions
    · simp [hp]
    · simp [hp]

/-- pauseSession only ever adds to the paused set. -/
theorem pauseSession_paused_mono (k x : String) (st : ManagerState)
    (h : x ∈ st.pausedSessions) : x ∈ (pauseSession k st).pausedSessions := by
  unfold pauseSession
  cases lookupKey k st.sessions with
  | none => exact h
  | some s =>
    by_cases hp : k ∈ st.pausedSessions
    · simpa [hp] using h
    · simp only [if_neg hp]
      exact List.mem_cons_of_mem k h

/-- Membership after pauseSession comes from the new key or the old set. -/
theorem pauseSession_paused_inv (k x : String) (st : ManagerState)
    (h : x ∈ (pauseSession k st).pausedSessions) : x = k ∨ x ∈ st.pausedSessions := by
  unfold pauseSession at h
  split at h
  · exact Or.inr h
  · split at h
    · exact Or.inr h
    · rcases List.mem_cons.mp h with h1 | h2
      · exact Or.inl h1
      · exact Or.inr h2

/-- pauseSession only ever appends to the pause-callback record. -/
theorem pauseSession_pauseEvents_extend (k : String) (st : ManagerState) :
    ∃ d, (pauseSession k st).pauseEvents = st.pauseEvents ++ d := by
  unfold pauseSession
  cases lookupKey k st.sessions with
  | none => exact ⟨[], by simp⟩
  | some s =>
    by_cases hp : k ∈ st.pausedSessions
    · exact ⟨[], by simp [hp]⟩
    · exact ⟨[k], by simp [hp]⟩

/-- pauseSession cannot re-create a cancelled timer. -/
theorem pauseSession_timer_none (k x : String) (st : ManagerState)
    (h : lookupKey x st.idleTimers = none) :
    lookupKey x (pauseSession k st).idleTimers = none := by
  unfold pauseSession
  cases lookupKey k st.sessions with
  | none => exact h
  | some s =>
    by_cases hp : k ∈ st.pausedSessions
    · simpa [hp] using h
    · simp only [if_neg hp]
      exact lookupKey_eraseKey_none x k st.idleTimers h

/-- A sweep entry never touches the sessions map. -/
theorem sweepStep_sessions (now : Nat) (acc : ManagerState)
    (p : String × VoiceClientSession) : (sweepStep now acc p).sessions = acc.sessions := by
  unfold sweepStep
  split
  · rfl
  · split
    · exact pauseSession_sessions p.1 acc
    · rfl

/-- A sweep entry only ever adds to the paused set. -/
theorem sweepStep_paused_mono (now : Nat) (acc : ManagerState)
    (p : String × VoiceClientSession) (x : String) (h : x ∈ acc.pausedSessions) :
    x ∈ (sweepStep now acc p).pausedSessions := by
  unfold sweepStep
  split
  · exact h
  · split
    · exact pauseSession_paused_mono p.1 x acc h
    · exact h

/-- A sweep entry cannot re-create a cancelled timer. -/
theorem sweepStep_timer_none (now : Nat) (acc : ManagerState)
    (p : String × VoiceClientSession) (x : String)
    (h : lookupKey x acc.idleTimers = none) :
    lookupKey x (sweepStep now acc p).idleTimers = none := by
  unfold sweepStep
  split
  · exact h
  · split
    · exact pauseSession_timer_none p.1 x acc h
    · exact h

/-- A sweep entry only ever appends to the pause-callback record. -/
theorem sweepStep_pauseEvents_extend (now : Nat) (acc : ManagerState)
    (p : String × VoiceClientSession) :
    ∃ d, (sweepStep now acc p).pauseEvents = acc.pauseEvents ++ d := by
  unfold sweepStep
  split
  · exact ⟨[], by simp⟩
  · split
    · exact pauseSession_pauseEvents_extend p.1 acc
    · exact ⟨[], by simp⟩

/-- Once a session is paused during a sweep — its timer cancelled and the
pause callback recorded — the remainder of the sweep preserves all three. -/
theorem sweep_fold_preserves (now : Nat) (sessionId : String) (base : List String) :
    ∀ (l : List (String × VoiceClientSession)) (acc : ManagerState),
      sessionId ∈ acc.pausedSessions →
      lookupKey sessionId acc.idleTimers = none →
      (∃ suf, acc.pauseEvents = base ++ suf ∧ sessionId ∈ suf) →
      (sessionId ∈ (l.foldl (sweepStep now) acc).pausedSessions
        ∧ lookupKey sessionId (l.foldl (sweepStep now) acc).idleTimers = none
        ∧ ∃ suf, (l.foldl (sweepStep now) acc).pauseEvents = base ++ suf
            ∧ sessionId ∈ suf) := by
  intro l
  induction l with
  | nil =>
    intro acc h1 h2 h3
    exact ⟨h1, h2, h3⟩
  | cons p rest ih =>
    intro acc h1 h2 h3
    rw [List.foldl_cons]
    apply ih
    · exact sweepStep_paused_mono now acc p sessionId h1
    · exact sweepStep_timer_none now acc p sessionId h2
    · obtain ⟨suf, hsuf, hm⟩ := h3
      obtain ⟨d, hd⟩ := sweepStep_pauseEvents_extend now acc p
      exact ⟨suf ++ d, by rw [hd, hsuf, List.append_assoc],
        List.mem_append_left d hm⟩

/-- A sweep over a list of entries containing an idle, unpaused session pauses
it: by the time the fold finishes the session is marked paused, its timer is
gone, and the pause callback has been invoked for it. -/
theorem sweep_fold_reaches (now : Nat) (sessionId : String) (s : VoiceClientSession)
    (sess : List (String × VoiceClientSession)) (base : List String)
    (hidle : IDLE_TIMEOUT_MS ≤ now - s.lastActivity) :
    ∀ (l : List (String × VoiceClientSession)) (acc : ManagerState),
      acc.sessions = sess → (sessionId, s) ∈ sess → (sessionId, s) ∈ l →
      sessionId ∉ acc.pausedSessions →
      (∃ suf, acc.pauseEvents = base ++ suf) →
      (sessionId ∈ (l.foldl (sweepStep now) acc).pausedSessions
        ∧ lookupKey sessionId (l.foldl (sweepStep now) acc).idleTimers = none
        ∧ ∃ suf, (l.foldl (sweepStep now) acc).pauseEvents = base ++ suf
            ∧ sessionId ∈ suf) := by
  intro l
  induction l with
  | nil =>
    intro acc _ _ hmem _ _
    simp at hmem
  | cons p rest ih =>
    intro acc hsess hmemsess hmem hnp hpe
    rw [List.foldl_cons]
    by_cases hp1 : p.1 ∈ acc.pausedSessions
    · have hstep : sweepStep now acc p = acc := by
        unfold sweepStep
        rw [if_pos hp1]
      rw [hstep]
      rcases List.mem_cons.mp hmem with h1 | h2
      · have hkey : p.1 = sessionId := by rw [← h1]
        exact absurd (hkey ▸ hp1) hnp
      · exact ih acc hsess hmemsess h2 hnp hpe
    · by_cases hcond : IDLE_TIMEOUT_MS ≤ now - p.2.lastActivity
      · have hstep : sweepStep now acc p = pauseSession p.1 acc := by
          unfold sweepStep
          rw [if_neg hp1, if_pos hcond]
        by_cases hps : p.1 = sessionId
        · have hlk : (lookupKey sessionId acc.sessions).isSome := by
            rw [hsess]
            exact lookupKey_isSome_of_mem sessionId s sess hmemsess
          obtain ⟨v, hv⟩ := Option.isSome_iff_exists.mp hlk
          have hpause : pauseSession sessionId acc =
              { acc with
                pausedSessions := sessionId :: acc.pausedSessions
                idleTimers := eraseKey sessionId acc.idleTimers
                pauseEvents := acc.pauseEvents ++ [sessionId] } := by
            unfold pauseSession
            rw [hv, if_neg hnp]
          rw [hstep, hps, hpause]
          apply sweep_fold_preserves now sessionId base rest
          · exact List.mem_cons_self sessionId acc.pausedSessions
          · exact lookupKey_eraseKey_self sessionId acc.idleTimers
          · obtain ⟨suf0, hsuf0⟩ := hpe
            refine ⟨suf0 ++ [sessionId], ?_, by simp⟩
            show acc.pauseEvents ++ [sessionId] = base ++ (suf0 ++ [sessionId])
            rw [hsuf0, List.append_assoc]
        · rw [hstep]
          apply ih
          · rw [pauseSession_sessions]
            exact hsess
          · exact hmemsess
          · rcases List.mem_cons.mp hmem with h1 | h2
            · exact absurd (by rw [← h1] : p.1 = sessionId) hps
            · exact h2
          · intro hmem2
            rcases pauseSession_paused_inv p.1 sessionId acc hmem2 with h1 | h2
            · exact hps h1.symm
            · exact hnp h2
          · obtain ⟨suf0, hsuf0⟩ := hpe
            obtain ⟨d, hd⟩ := pauseSession_pauseEvents_extend p.1 acc
            exact ⟨suf0 ++ d, by rw [hd, hsuf0, List.append_assoc]⟩
      · have hstep : sweepStep now acc p = acc := by
          unfold sweepStep
          rw [if_neg hp1, if_neg hcond]
        rw [hstep]
        rcases List.mem_cons.mp hmem with h1 | h2
        · exact absurd (by simpa [← h1] using hidle) hcond
        · exact ih acc hsess hmemsess h2 hnp hpe

/-- C7: a stored session that is not paused and whose idle time has reached
the 5-minute threshold is paused by the completion of the next 30-second
cleanup tick: it is marked paused, its per-session timer is cancelled, and
the registered pause callback is invoked for it during the tick. -/
theorem c7_idle_session_paused_by_sweep (st : ManagerState) (now : Nat)
    (sessionId : String) (s : VoiceClientSession)
    (hmem : (sessionId, s) ∈ st.sessions)
    (hnp : sessionId ∉ st.pausedSessions)
    (hidle : s.lastActivity + IDLE_TIMEOUT_MS ≤ now) :
    sessionId ∈ (cleanupTick now st).pausedSessions
      ∧ lookupKey sessionId (cleanupTick now st).idleTimers = none
      ∧ (∃ suf, (cleanupTick now st).pauseEvents = st.pauseEvents ++ suf
          ∧ sessionId ∈ suf)
      ∧ IDLE_TIMEOUT_MS = 5 * 60 * 1000 ∧ CHECK_INTERVAL_MS = 30 * 1000 := by
  have hidle2 : IDLE_TIMEOUT_MS ≤ now - s.lastActivity := by omega
  have h := sweep_fold_reaches now sessionId s st.sessions st.pauseEvents hidle2
    st.sessions st rfl hmem hmem hnp ⟨[], (List.append_nil _).symm⟩
  exact ⟨h.1, h.2.1, h.2.2, rfl, rfl⟩

/-- Witness for C7: the sample session, idle since time 0, paused by a sweep
at exactly the 5-minute mark. -/
theorem c7_idle_session_paused_by_sweep_witness :
    (("s1", sampleSession) ∈ sampleState.sessions
        ∧ "s1" ∉ sampleState.pausedSessions
        ∧ sampleSession.lastActivity + IDLE_TIMEOUT_MS ≤ 300000)
      ∧ ("s1" ∈ (cleanupTick 300000 sampleState).pausedSessions
        ∧ lookupKey "s1" (cleanupTick 300000 sampleState).idleTimers = none
        ∧ (∃ suf, (cleanupTick 300000 sampleState).pauseEvents
              = sampleState.pauseEvents ++ suf ∧ "s1" ∈ suf)
        ∧ IDLE_TIMEOUT_MS = 5 * 60 * 1000 ∧ CHECK_INTERVAL_MS = 30 * 1000) :=
  ⟨⟨by decide, by decide, by decide⟩,
    c7_idle_session_paused_by_sweep sampleState 300000 "s1" sampleSession
      (by decide) (by decide) (by decide)⟩

/-- Refreshing lastActivity commutes with lookup: only the session under the
refreshed key changes, and only in its lastActivity field. -/
theorem lookupKey_touchSession (now : Nat) (k q : String) :
    ∀ l : List (String × VoiceClientSession),
      lookupKey q (touchSession now k l)
        = (lookupKey q l).map
            (fun s => if q = k then { s with lastActivity := now } else s) := by
  intro l
  induction l with
  | nil => rfl
  | cons p rest ih =>
    simp only [touchSession, List.map_cons]
    by_cases hpk : p.1 = k
    · rw [if_pos hpk]
      by_cases hpq : p.1 = q
      · have hqk : q = k := by rw [← hpq, hpk]
        simp [lookupKey, hpq, hqk]
      · simp only [lookupKey, if_neg hpq]
        rw [← ih]
        rfl
    · rw [if_neg hpk]
      by_cases hpq : p.1 = q
      · have hqk : ¬ q = k := by rw [← hpq]; exact hpk
        simp [lookupKey, hpq, hqk]
      · simp only [lookupKey, if_neg hpq]
        rw [← ih]
        rfl

/-- Refreshing lastActivity twice with the same timestamp is the same as
doing it once. -/
theorem touchSession_idem (now : Nat) (k : String)
    (l : List (String × VoiceClientSession)) :
    touchSession now k (touchSession now k l) = touchSession now k l := by
  simp only [touchSession, List.map_map]
  apply List.map_congr_left
  intro p _
  by_cases h : p.1 = k <;> simp [Function.comp, h]

/-- Re-arming a timer twice with the same deadline is the same as once. -/
theorem setKey_idem {α : Type} (k : String) (v : α) :
    ∀ l : List (String × α), setKey k v (setKey k v l) = setKey k v l := by
  intro l
  induction l with
  | nil => simp [setKey]
  | cons p rest ih =>
    by_cases h : p.1 = k
    · simp [setKey, h]
    · simp [setKey, h, ih]

/-- On an existing non-paused session, getOrResumeSession just refreshes
lastActivity and re-arms the idle timer. -/
theorem getOrResume_active_eq (st : ManagerState) (now : Nat) (sessionId : String)
    (hsome : (lookupKey sessionId st.sessions).isSome)
    (hnp : sessionId ∉ st.pausedSessions) :
    (getOrResumeSession now sessionId st).2
      = { st with
          sessions := touchSession now sessionId st.sessions
          idleTimers := setKey sessionId (now + IDLE_TIMEOUT_MS) st.idleTimers } := by
  obtain ⟨v, hv⟩ := Option.isSome_iff_exists.mp hsome
  unfold getOrResumeSession resetIdleTimer
  rw [hv]
  simp [hnp]

/-- C8: getOrResumeSession on an existing session that is not paused changes
nothing except refreshing lastActivity and re-arming the idle timer: the
resume callback is not invoked, the message list of every session is
unchanged, the paused set is unchanged, and applying the operation twice in
succession leaves the same state as applying it once. -/
theorem c8_getOrResume_active_refresh_only (st : ManagerState) (now : Nat)
    (sessionId : String) (s : VoiceClientSession)
    (hlook : lookupKey sessionId st.sessions = some s)
    (hnp : sessionId ∉ st.pausedSessions) :
    (getOrResumeSession now sessionId st).2.pausedSessions = st.pausedSessions
      ∧ (getOrResumeSession now sessionId st).2.resumeEvents = st.resumeEvents
      ∧ (getOrResumeSession now sessionId st).2.pauseEvents = st.pauseEvents
      ∧ (∀ q, getSessionMessages q (getOrResumeSession now sessionId st).2
          = getSessionMessages q st)
      ∧ (getOrResumeSession now sessionId st).2.sessions
          = touchSession now sessionId st.sessions
      ∧ (getOrResumeSession now sessionId st).2.idleTimers
          = setKey sessionId (now + IDLE_TIMEOUT_MS) st.idleTimers
      ∧ (getOrResumeSession now sessionId
            (getOrResumeSession now sessionId st).2).2
          = (getOrResumeSession now sessionId st).2 := by
  have hsome : (lookupKey sessionId st.sessions).isSome := by
    rw [hlook]; rfl
  have heq := getOrResume_active_eq st now sessionId hsome hnp
  refine ⟨by rw [heq], by rw [heq], by rw [heq], ?_, by rw [heq], by rw [heq], ?_⟩
  · intro q
    rw [heq]
    unfold getSessionMessages
    show (match lookupKey q (touchSession now sessionId st.sessions) with
      | none => []
      | some s => s.messages) = _
    rw [lookupKey_touchSession]
    cases lookupKey q st.sessions with
    | none => rfl
    | some v =>
      by_cases hq : q = sessionId <;> simp [hq]
  · have hsome2 : (lookupKey sessionId
        ((getOrResumeSession now sessionId st).2).sessions).isSome := by
      rw [heq]
      show (lookupKey sessionId (touchSession now sessionId st.sessions)).isSome
      rw [lookupKey_touchSession, hlook]
      rfl
    have hnp2 : sessionId ∉ ((getOrResumeSession now sessionId st).2).pausedSessions := by
      rw [heq]
      exact hnp
    have heq2 := getOrResume_active_eq ((getOrResumeSession now sessionId st).2)
      now sessionId hsome2 hnp2
    rw [heq2, heq]
    simp [touchSession_idem, setKey_idem]

/-- Witness for C8 on the sample state at time 7. -/
theorem c8_getOrResume_active_refresh_only_witness :
    (lookupKey "s1" sampleState.sessions = some sampleSession
        ∧ "s1" ∉ sampleState.pausedSessions)
      ∧ ((getOrResumeSession 7 "s1" sampleState).2.pausedSessions
            = sampleState.pausedSessions
        ∧ (getOrResumeSession 7 "s1" sampleState).2.resumeEvents
            = sampleState.resumeEvents
        ∧ (getOrResumeSession 7 "s1" sampleState).2.pauseEvents
            = sampleState.pauseEvents
        ∧ (∀ q, getSessionMessages q (getOrResumeSession 7 "s1" sampleState).2
            = getSessionMessages q sampleState)
        ∧ (getOrResumeSession 7 "s1" sampleState).2.sessions
            = touchSession 7 "s1" sampleState.sessions
        ∧ (getOrResumeSession 7 "s1" sampleState).2.idleTimers
            = setKey "s1" (7 + IDLE_TIMEOUT_MS) sampleState.idleTimers
        ∧ (getOrResumeSession 7 "s1"
              (getOrResumeSession 7 "s1" sampleState).2).2
            = (getOrResumeSession 7 "s1" sampleState).2) :=
  ⟨⟨by decide, by decide⟩,
    c8_getOrResume_active_refresh_only sampleState 7 "s1" sampleSession
      (by decide) (by decide)⟩

/-- C9: pausing a session touches only the paused-state bookkeeping (paused
set, pause-callback record) and the timer map: the sessions map — and with it
every session's message list, lastActivity, profile name, creation time and
identifier — is unchanged, and the resume-callback record is unchanged. The
session manager holds no handle to any client-visible stream, so nothing is
written to the wire. -/
theorem c9_pauseSession_frame (st : ManagerState) (sessionId : String) :
    (pauseSession sessionId st).sessions = st.sessions
      ∧ (pauseSession sessionId st).resumeEvents = st.resumeEvents
      ∧ ∀ q, getSessionMessages q (pauseSession sessionId st)
          = getSessionMessages q st := by
  refine ⟨pauseSession_sessions sessionId st, pauseSession_resumeEvents sessionId st, ?_⟩
  intro q
  unfold getSessionMessages
  rw [pauseSession_sessions]

/-- C10: getSessionMessages returns the empty list for an identifier not in
the store rather than failing (the embedded function is total and reads the
state without modifying it), and returns exactly the stored session's ordered
message list for a present identifier. -/
theorem c10_getSessionMessages_total (st : ManagerState) (sessionId : String) :
    (lookupKey sessionId st.sessions = none → getSessionMessages sessionId st = [])
      ∧ ∀ s, lookupKey sessionId st.sessions = some s →
          getSessionMessages sessionId st = s.messages := by
  constructor
  · intro h
    unfold getSessionMessages
    rw [h]
  · intro s h
    unfold getSessionMessages
    rw [h]

/-- Witness for C10: an unknown identifier yields the empty list, the sample
session's identifier yields its history. -/
theorem c10_getSessionMessages_total_witness :
    (lookupKey "zz" sampleState.sessions = none
        ∧ getSessionMessages "zz" sampleState = [])
      ∧ (lookupKey "s1" sampleState.sessions = some sampleSession
        ∧ getSessionMessages "s1" sampleState = sampleSession.messages) :=
  ⟨⟨by decide, (c10_getSessionMessages_total sampleState "zz").1 (by decide)⟩,
    ⟨by decide, (c10_getSessionMessages_total sampleState "s1").2 sampleSession
      (by decide)⟩⟩

/-- C5: each POST /audio validation failure that occurs before any stream
bytes are written yields a synchronous JSON response (Content-Type
application/json, an `{error}` body, no SSE stream opened) with its own
status code and leaves the session store untouched: missing X-Profile → 400,
profile not allowed → 403, missing sessionId → 400, unknown sessionId → 404
with "Session not found", body over the 10MB MAX_AUDIO_SIZE → 413. -/
theorem c5_audio_validation_errors (st : ManagerState) (allowed : List String)
    (req : AudioRequest) (now : Nat) (transcription : Except String Transcription)
    (agentResult : AgentResponseResult) :
    (req.xProfile = none →
        handleAudioUpload st allowed req now transcription agentResult
          = ⟨400, "application/json", .errorBody "X-Profile header required", st, false⟩)
      ∧ (∀ p, req.xProfile = some p → p ≠ "" → p ∉ allowed →
        handleAudioUpload st allowed req now transcription agentResult
          = ⟨403, "application/json", .errorBody "Profile not allowed", st, false⟩)
      ∧ (∀ p, req.xProfile = some p → p ≠ "" → p ∈ allowed →
          req.sessionIdParam = none →
        handleAudioUpload st allowed req now transcription agentResult
          = ⟨400, "application/json",
              .errorBody "sessionId query parameter required", st, false⟩)
      ∧ (∀ p sid, req.xProfile = some p → p ≠ "" → p ∈ allowed →
          req.sessionIdParam = some sid → sid ≠ "" →
          lookupKey sid st.sessions = none →
        handleAudioUpload st allowed req now transcription agentResult
          = ⟨404, "application/json", .errorBody "Session not found", st, false⟩)
      ∧ (∀ p sid s, req.xProfile = some p → p ≠ "" → p ∈ allowed →
          req.sessionIdParam = some sid → sid ≠ "" →
          lookupKey sid st.sessions = some s → MAX_AUDIO_SIZE < req.bodySize →
        handleAudioUpload st allowed req now transcription agentResult
          = ⟨413, "application/json", .errorBody "Audio file too large", st, false⟩) := by
  refine ⟨?_, ?_, ?_, ?_, ?_⟩
  · intro h
    simp [handleAudioUpload, h]
  · intro p hp hne hnotin
    simp [handleAudioUpload, hp, hne, hnotin]
  · intro p hp hne hin hsid
    simp [handleAudioUpload, hp, hne, hin, hsid]
  · intro p sid hp hne hin hsid hsidne hlk
    simp [handleAudioUpload, hp, hne, hin, hsid, hsidne, hlk]
  · intro p sid s hp hne hin hsid hsidne hlk hsize
    simp [handleAudioUpload, hp, hne, hin, hsid, hsidne, hlk, hsize]

/-- Witness for C5: the unknown-session case against the sample store. -/
theorem c5_audio_validation_errors_witness :
    ((⟨some "Alice", none, some "nope", 10⟩ : AudioRequest).xProfile = some "Alice"
        ∧ ("Alice" : String) ≠ "" ∧ "Alice" ∈ ["Alice"]
        ∧ (⟨some "Alice", none, some "nope", 10⟩ : AudioRequest).sessionIdParam
            = some "nope"
        ∧ ("nope" : String) ≠ "" ∧ lookupKey "nope" sampleState.sessions = none)
      ∧ handleAudioUpload sampleState ["Alice"] ⟨some "Alice", none, some "nope", 10⟩
          0 (.ok ⟨"hi", 9⟩) ⟨some "ok", none⟩
        = ⟨404, "application/json", .errorBody "Session not found", sampleState, false⟩ :=
  ⟨⟨rfl, by decide, by decide, rfl, by decide, by decide⟩,
    (c5_audio_validation_errors sampleState ["Alice"]
        ⟨some "Alice", none, some "nope", 10⟩ 0 (.ok ⟨"hi", 9⟩)
        ⟨some "ok", none⟩).2.2.2.1 "Alice" "nope"
      rfl (by decide) (by decide) rfl (by decide) (by decide)⟩

/-- C6: when the transcription collaborator returns empty text for a turn
that passed validation, no agent call is made (agentCalled = false and the
given agent result is irrelevant), the fixed fallback message is the turn's
logical result, and the session state — in particular every message
history — is completely unchanged: no assistant message is appended. -/
theorem c6_empty_transcription_no_agent (st : ManagerState) (allowed : List String)
    (req : AudioRequest) (now : Nat) (confidence : Nat)
    (agentResult : AgentResponseResult) (p sid : String) (s : VoiceClientSession)
    (hp : req.xProfile = some p) (hne : p ≠ "") (hin : p ∈ allowed)
    (hsid : req.sessionIdParam = some sid) (hsidne : sid ≠ "")
    (hlk : lookupKey sid st.sessions = some s)
    (hsize : ¬ MAX_AUDIO_SIZE < req.bodySize) :
    handleAudioUpload st allowed req now (.ok ⟨"", confidence⟩) agentResult
      = ⟨200, "application/json",
          .resultBody "" confidence emptyTranscriptionFallback, st, false⟩
      ∧ emptyTranscriptionFallback = "I didn't catch that. Could you try again?" := by
  constructor
  · simp [handleAudioUpload, hp, hne, hin, hsid, hsidne, hlk, hsize]
  · rfl

/-- Witness for C6 on the sample store. -/
theorem c6_empty_transcription_no_agent_witness :
    ((⟨some "Alice", none, some "s1", 10⟩ : AudioRequest).xProfile = some "Alice"
        ∧ ("Alice" : String) ≠ "" ∧ "Alice" ∈ ["Alice"]
        ∧ (⟨some "Alice", none, some "s1", 10⟩ : AudioRequest).sessionIdParam
            = some "s1"
        ∧ ("s1" : String) ≠ ""
        ∧ lookupKey "s1" sampleState.sessions = some sampleSession
        ∧ ¬ MAX_AUDIO_SIZE
            < (⟨some "Alice", none, some "s1", 10⟩ : AudioRequest).bodySize)
      ∧ (handleAudioUpload sampleState ["Alice"] ⟨some "Alice", none, some "s1", 10⟩
            0 (.ok ⟨"", 0⟩) ⟨some "ok", none⟩
          = ⟨200, "application/json",
              .resultBody "" 0 emptyTranscriptionFallback, sampleState, false⟩
        ∧ emptyTranscriptionFallback = "I didn't catch that. Could you try again?") :=
  ⟨⟨rfl, by decide, by decide, rfl, by decide, by decide, by decide⟩,
    c6_empty_transcription_no_agent sampleState ["Alice"]
      ⟨some "Alice", none, some "s1", 10⟩ 0 0 ⟨some "ok", none⟩ "Alice" "s1"
      sampleSession rfl (by decide) (by decide) rfl (by decide) (by decide)
      (by decide)⟩

/-- C1: for a POST /audio turn whose transcription succeeds with non-blank
text and whose agent streaming call completes without error, the turn's event
stream is exactly: one system event with status transcribing, one user event
carrying the transcript text and confidence, one system event with status
typing, the done=false openclaw events carrying the non-empty deltas, one
openclaw event with empty text and done=true, and finally exactly one
terminal system event with status done, after which no further event is
written (it is the last element of the stream). -/
theorem c1_sse_happy_path_order (snapshots : List (List Char)) (result : RunResult)
    (tr : Transcription) (hchain : chainFrom [] snapshots) (htext : tr.text ≠ "")
    (hok : (extractResultText result).error = none) :
    sseTurn (.ok tr) (.completes snapshots result)
        = [SSEEvent.system "transcribing" none,
            SSEEvent.userEvent tr.text tr.confidence,
            SSEEvent.system "typing" none]
          ++ (deltasFrom [] snapshots).map (fun d => SSEEvent.openclaw d false)
          ++ [SSEEvent.openclaw [] true, SSEEvent.system "done" none]
      ∧ (∀ d ∈ deltasFrom [] snapshots, d ≠ [])
      ∧ (sseTurn (.ok tr) (.completes snapshots result)).countP isTerminalEvent = 1
      ∧ (sseTurn (.ok tr) (.completes snapshots result)).getLast?
          = some (SSEEvent.system "done" none) := by
  have hmaps : ((deltasFrom [] snapshots).map (fun d => (d, false))
        ++ [(([] : List Char), true)]).map (fun c => SSEEvent.openclaw c.1 c.2)
      = (deltasFrom [] snapshots).map (fun d => SSEEvent.openclaw d false)
        ++ [SSEEvent.openclaw [] true] := by
    rw [List.map_append, List.map_map]
    rfl
  have hmain : sseTurn (.ok tr) (.completes snapshots result)
      = [SSEEvent.system "transcribing" none,
          SSEEvent.userEvent tr.text tr.confidence,
          SSEEvent.system "typing" none]
        ++ (deltasFrom [] snapshots).map (fun d => SSEEvent.openclaw d false)
        ++ [SSEEvent.openclaw [] true, SSEEvent.system "done" none] := by
    simp only [sseTurn, if_neg htext, generateAgentResponseStreaming,
      streamDeltas_emitted_chain snapshots hchain, hok, hmaps]
    simp
  have hdel : ((deltasFrom [] snapshots).map
      (fun d => SSEEvent.openclaw d false)).countP isTerminalEvent = 0 := by
    rw [List.countP_eq_zero]
    intro e he
    simp only [List.mem_map] at he
    obtain ⟨d, _, hd⟩ := he
    rw [← hd]
    simp [isTerminalEvent]
  refine ⟨hmain, deltasFrom_ne_nil snapshots [], ?_, ?_⟩
  · rw [hmain, List.countP_append, List.countP_append, hdel]
    simp [isTerminalEvent]
  · rw [hmain]
    rw [show [SSEEvent.openclaw [] true, SSEEvent.system "done" none]
        = [SSEEvent.openclaw [] true] ++ [SSEEvent.system "done" none] from rfl,
      ← List.append_assoc]
    exact List.getLast?_concat _

/-- Witness for C1: the two-snapshot chain "h", "hi" with a successful
one-payload agent result; the stream holds exactly one terminal event. -/
theorem c1_sse_happy_path_order_witness :
    (chainFrom [] [['h'], ['h', 'i']]
        ∧ (⟨"hi", 95⟩ : Transcription).text ≠ ""
        ∧ (extractResultText ⟨[], false⟩).error = none)
      ∧ (sseTurn (.ok ⟨"hi", 95⟩)
          (.completes [['h'], ['h', 'i']]
            ⟨[], false⟩)).countP isTerminalEvent = 1 :=
  have hchain : chainFrom [] [['h'], ['h', 'i']] := by
    simp only [chainFrom]
    exact ⟨⟨['h'], rfl⟩, ⟨['i'], rfl⟩, trivial⟩
  ⟨⟨hchain, by decide, by decide⟩,
    (c1_sse_happy_path_order [['h'], ['h', 'i']] ⟨[], false⟩
      ⟨"hi", 95⟩ hchain (by decide) (by decide)).2.2.1⟩
